import Mathlib

/-!
Shallow embedding of the fetch execution engine of this repository
(src/lib/fetch-common.ts, src/lib/fetch-http1.ts, src/lib/utils.ts).

External collaborators (the WHATWG URL parser, the cookie-jar store, the
Headers container's validation, the Node event loop) are abstracted as
parameters or as minimal state, exactly as the spec declares them out of
scope.  Asynchronous control flow is embedded as a per-hop step function
over an explicit chain state, with the per-hop clock, cancellation-signal
state and transport response supplied by an environment record.
-/

namespace FetchH2

/-- Errors raised by the fetch pipeline.  Mirrors the error constructors of
src/lib/fetch-common.ts (lines 47-49, 152-153, 200, 265-304):
redirection-loop (with its `urls` payload), TimeoutError, AbortError,
illegal-redirect (redirect status without location), RedirectionError and
RedirectionMethodError. -/
inductive FetchError where
  | redirectionLoop (urls : List String)
  | timeout
  | abort
  | illegalRedirect
  | redirection (location : Option String)
  | redirectionMethod (location : Option String) (method : String)
  deriving DecidableEq

/-- The caller-chosen redirect policy of a request (spec §3, glossary). -/
inductive RedirectPolicy where
  | follow
  | error
  | manual
  deriving DecidableEq

/-- The active wire protocol of the session (src/lib/fetch-common.ts:109). -/
inductive Protocol where
  | http1
  | http2
  deriving DecidableEq

/-- A response-header value as delivered by the transport: a single string,
or an array of strings for repeated headers (the type accepted by
utils.parseLocation: `string | string[]`). -/
inductive HdrVal where
  | str (s : String)
  | arr (a : List String)
  deriving DecidableEq

/-- Raw response headers: an association list of name/value pairs. -/
abbrev RespHeaders := List (String × HdrVal)

/-- First-match lookup in a response-header list (JS property access
`headers[name]`). -/
def lookupHdr : RespHeaders → String → Option HdrVal
  | [], _ => none
  | p :: hs, k => if p.1 = k then some p.2 else lookupHdr hs k

/-- JS truthiness of a response-header value: absent and the empty string
are falsy, arrays (even empty) are truthy.  Used for the
`if (headers[HTTP1_HEADER_SET_COOKIE])` test (src/lib/fetch-http1.ts:156). -/
def hdrTruthy : Option HdrVal → Bool
  | none => false
  | some (.str s) => !(s == "")
  | some (.arr _) => true

/-- Translation of utils.arrayify (src/lib/utils.ts:6-19) as applied to a
response-header value: null becomes [], an array stays, a plain value is
wrapped. -/
def arrayifyHdr : Option HdrVal → List String
  | none => []
  | some (.str s) => [s]
  | some (.arr a) => a

/-- utils.arrayify applied to an optional single string (the shape returned
by the request Headers container's get). -/
def arrayifyOpt : Option String → List String
  | none => []
  | some s => [s]

/-- Translation of utils.parseLocation (src/lib/utils.ts:21-30).  A value
that is not a single string (absent, or a string array from repeated
headers) yields null; a string is resolved against the given origin.  The
WHATWG resolution `new URL(location, origin).href` is the external URL
parser, abstracted as `resolve`. -/
def parseLocation (resolve : String → String → String) :
    Option HdrVal → String → Option String
  | some (.str s), origin => some (resolve s origin)
  | _, _ => none

/-- Helper of ensureNotCircularRedirection: the ascending scan
`for (let i = 0; i < urls.length; ++i) if (urls[i] === last)` of
src/lib/fetch-common.ts:44-50, returning the suffix `urls.slice(i)` from
the first match. -/
def scanForDup : List String → String → Option (List String)
  | [], _ => none
  | u :: us, last => if u = last then some (u :: us) else scanForDup us last

/-- Translation of ensureNotCircularRedirection
(src/lib/fetch-common.ts:38-51): copy the list, pop the last element, and
fail with the redirection-loop error (carrying `urls.slice(i)`) if that
last element occurs among the earlier ones. -/
def ensureNotCircularRedirection (redirections : List String) :
    Except FetchError Unit :=
  match redirections.getLast? with
  | none => .ok ()
  | some last =>
    match scanForDup redirections.dropLast last with
    | none => .ok ()
    | some ls => .error (.redirectionLoop ls)

/-- Translation of the timeoutAt computation (src/lib/fetch-common.ts:156-163):
`extra.timeoutAt || ("timeout" in init ? Date.now() + init.timeout : void 0)`.
JS `||`: a timeoutAt of 0 is falsy and falls through to the init-based
computation. -/
def computeTimeoutAt (extraTimeoutAt initTimeout : Option Nat) (now : Nat) :
    Option Nat :=
  match extraTimeoutAt with
  | some t => if t ≠ 0 then some t else initTimeout.map (fun ms => now + ms)
  | none => initTimeout.map (fun ms => now + ms)

/-- The synchronous prefix of setupTimeout (src/lib/fetch-common.ts:165-172):
with no (or zero, hence falsy) timeoutAt no timer is constructed; a deadline
already reached throws TimeoutError before any timer or transport
activity. -/
def setupTimeoutCheck (timeoutAt : Option Nat) (now : Nat) :
    Option FetchError :=
  match timeoutAt with
  | some t => if t ≠ 0 ∧ now ≥ t then some .timeout else none
  | none => none

/-- Result of the synchronous setup phase of setupFetch. -/
inductive SetupOutcome where
  | fail (e : FetchError)
  | go (timeoutAt : Option Nat)
  deriving DecidableEq

/-- The fallible part of setupFetch (src/lib/fetch-common.ts:65-245) in
source order: the circular-redirection check (line 74), then the timeoutAt
computation and the immediate-timeout check (lines 156-196), then the
already-aborted signal check (lines 203-204).  `aborted` is the state of
the caller's cancellation signal at setup time (false when no signal was
supplied). -/
def setupPhase (redirected : List String) (extraTimeoutAt initTimeout : Option Nat)
    (now : Nat) (aborted : Bool) : SetupOutcome :=
  match ensureNotCircularRedirection redirected with
  | .error e => .fail e
  | .ok _ =>
    let timeoutAt := computeTimeoutAt extraTimeoutAt initTimeout now
    match setupTimeoutCheck timeoutAt now with
    | some e => .fail e
    | none => if aborted then .fail .abort else .go timeoutAt

/-- Modelled from the spec: the Request class is not among the provided
sources.  Spec §3: "Request — immutable description: target URL, method,
header multimap, ..., redirect policy (follow/error/manual)"; spec §6:
"request.clone(newURL) -> Request preserving headers/body-policy but
rebinding target". -/
structure RequestModel where
  url : String
  method : String
  redirect : RedirectPolicy
  headers : List (String × String)
  deriving DecidableEq

/-- Modelled from the spec (§6): request.clone rebinds the target URL and
preserves everything else. -/
def cloneRequest (r : RequestModel) (newUrl : String) : RequestModel :=
  { r with url := newUrl }

/-- The session policy consumed by header assembly
(src/lib/fetch-common.ts:95-132; spec §6).  contentDecoders carries the
decoder names in configured order. -/
structure SessionModel where
  protocol : Protocol
  accept : String
  userAgent : String
  contentDecoders : List String
  deriving DecidableEq

/-- Outgoing raw headers (the RawHeaders object literal being built by
setupFetch). -/
abbrev RawHeaders := List (String × String)

/-- First-match lookup in an outgoing-header list (JS property read). -/
def hGet : RawHeaders → String → Option String
  | [], _ => none
  | p :: hs, k => if p.1 = k then some p.2 else hGet hs k

/-- Key-presence test (the Headers container's has). -/
def hHas (hs : RawHeaders) (k : String) : Bool :=
  (hGet hs k).isSome

/-- In-place value update for an existing key (JS property assignment on a
key the object already holds keeps its position). -/
def rawOverwrite (hs : RawHeaders) (k v : String) : RawHeaders :=
  hs.map (fun p => if p.1 = k then (k, v) else p)

/-- JS property assignment `obj[k] = v`: overwrite in place when the key
exists, append otherwise. -/
def rawSet (hs : RawHeaders) (k v : String) : RawHeaders :=
  if hs.any (fun p => p.1 == k) then rawOverwrite hs k v else hs ++ [(k, v)]

/-- The accept-encoding computation (src/lib/fetch-common.ts:95-102): the
fixed fallback when no content decoders are configured, otherwise each
decoder name at quality 1.0, in order, followed by the fallback at lower
quality. -/
def acceptEncodingOf (contentDecoders : List String) : String :=
  if contentDecoders.length = 0 then
    "gzip;q=1.0, deflate;q=0.5"
  else
    String.intercalate ", "
      (contentDecoders.map (fun name => name ++ ";q=1.0"))
    ++ ", gzip;q=0.8, deflate;q=0.5"

/-- The cookie merge (src/lib/fetch-common.ts:92-93,104-105): the session
cookie-jar snapshot for this URL first, then any cookie header value
already present on the request's own headers, arrayified. -/
def mergedCookies (requestHeaders : List (String × String))
    (jarCookies : List String) : List String :=
  if hHas requestHeaders "cookie" then
    jarCookies ++ arrayifyOpt (hGet requestHeaders "cookie")
  else jarCookies

/-- The protocol.replace call of src/lib/fetch-common.ts:111: strip
everything from the first colon onwards ("https:" becomes "https"). -/
def schemeOf (urlProtocol : String) : String :=
  urlProtocol.takeWhile (fun c => c ≠ ':')

/-- One iteration of the verbatim-copy loop over the request's own headers
(src/lib/fetch-common.ts:124-132): `host` becomes the `:authority`
pseudo-header under http2, the cookie header (already merged) is never
copied again, everything else is copied verbatim. -/
def copyHeader (protocol : Protocol) (hs : RawHeaders) (kv : String × String) :
    RawHeaders :=
  if kv.1 = "host" ∧ protocol = .http2 then rawSet hs ":authority" kv.2
  else if ¬(kv.1 = "cookie") then rawSet hs kv.1 kv.2
  else hs

/-- The header-assembly part of setupFetch (src/lib/fetch-common.ts:87-148).
URL decomposition is external, so the url's protocol and path arrive
pre-split; `inspLength`/`inspMime` are the external BodyInspector's
verdicts.  Steps in source order: pseudo-headers only under the
multiplexed protocol, default headers (accept, user-agent,
accept-encoding), the merged cookie header when non-empty, the verbatim
copy loop, and the inferred content-length/content-type for requests that
carry a body. -/
def setupHeaders (session : SessionModel) (request : RequestModel)
    (jarCookies : List String) (urlProtocol path : String)
    (inspLength : Option Nat) (inspMime : Option String) : RawHeaders :=
  let endStream := request.method = "GET" ∨ request.method = "HEAD"
  let cookies := mergedCookies request.headers jarCookies
  let base : RawHeaders :=
    (if session.protocol = .http1 then [] else
      [(":method", request.method),
       (":scheme", schemeOf urlProtocol),
       (":path", path)]) ++
    [("accept", session.accept),
     ("user-agent", session.userAgent),
     ("accept-encoding", acceptEncodingOf session.contentDecoders)]
  let withCookie :=
    if 0 < cookies.length then
      rawSet base "cookie" (String.intercalate "; " cookies)
    else base
  let withUser := request.headers.foldl (copyHeader session.protocol) withCookie
  let withCL :=
    if ¬endStream ∧ inspLength.isSome ∧ ¬(hHas request.headers "content-length") then
      rawSet withUser "content-length" (toString (inspLength.getD 0))
    else withUser
  if ¬endStream ∧ ¬(hHas request.headers "content-type") ∧ inspMime.isSome then
    rawSet withCL "content-type" (inspMime.getD "")
  else withCL

/-- Modelled from the spec: isRedirectStatus is imported from ./utils by
src/lib/fetch-http1.ts:25 but its definition is not among the provided
sources.  Glossary: "Redirect status: an HTTP response status code in the
3xx class that conventionally carries a location header". -/
def isRedirectStatus (status : Nat) : Bool :=
  status == 300 || status == 301 || status == 302 || status == 303 ||
  status == 305 || status == 307 || status == 308

/-- A transport response as delivered to the "response" event handler:
status code and raw headers. -/
structure NetResp where
  status : Nat
  headers : RespHeaders
  deriving DecidableEq

/-- The caller-visible terminal response constructed at
src/lib/fetch-http1.ts:170-187 (the fields the claims are about). -/
structure StreamResponseModel where
  url : String
  headers : RespHeaders
  redirected : Bool
  status : Nat
  deriving DecidableEq

/-- The session cookie jar is an external collaborator (spec §1, §6); the
engine's responsibility is which setCookies calls it issues, so the jar is
modelled as the ordered log of those calls: (raw set-cookie values, url). -/
abbrev Jar := List (List String × String)

/-- `session.cookieJar.setCookies(setCookies, url)`
(src/lib/fetch-http1.ts:161). -/
def setCookies (jar : Jar) (values : List String) (url : String) : Jar :=
  jar ++ [(values, url)]

/-- Strip the cookie-setting headers before surfacing them to the caller
(the two delete statements of src/lib/fetch-http1.ts:164-165). -/
def stripSetCookie (hs : RespHeaders) : RespHeaders :=
  hs.filter (fun p => !(p.1 == "set-cookie" || p.1 == "set-cookie2"))

/-- What the redirect driver decides for one received response. -/
inductive HandleOutcome where
  | terminal (r : StreamResponseModel)
  | redirectTo (location : String)
  | failed (e : FetchError)
  deriving DecidableEq

/-- Translation of the "response" event handler of fetchImpl
(src/lib/fetch-http1.ts:112-217) for non-informational responses, in
source order: parse the location against the current URL (149-152),
classify the status (154), store any set-cookie values into the jar
(156-162), strip set-cookie/set-cookie2 (164-165), then evaluate:
redirect status without usable location (167-168), terminal resolution
with the redirected flag (170-187), the error policy (189-190), the
non-GET/HEAD rejection (197-200), and the follow continuation (202-216).
Returns the updated jar together with the decision. -/
def handleResponse (resolve : String → String → String) (request : RequestModel)
    (redirected : List String) (jar : Jar) (resp : NetResp) :
    Jar × HandleOutcome :=
  let url := request.url
  let location := parseLocation resolve (lookupHdr resp.headers "location") url
  let isRedirected := isRedirectStatus resp.status
  let setCookieVal := lookupHdr resp.headers "set-cookie"
  let jar2 :=
    if hdrTruthy setCookieVal then setCookies jar (arrayifyHdr setCookieVal) url
    else jar
  let headers := stripSetCookie resp.headers
  if isRedirected = true ∧ location = none then
    (jar2, .failed .illegalRedirect)
  else if isRedirected = false ∨ request.redirect = RedirectPolicy.manual then
    (jar2, .terminal {
      url := url
      headers := headers
      redirected :=
        if request.redirect = RedirectPolicy.manual then false
        else !redirected.isEmpty
      status := resp.status })
  else if request.redirect = RedirectPolicy.error then
    (jar2, .failed (.redirection location))
  else if ¬(request.method = "GET" ∨ request.method = "HEAD") then
    (jar2, .failed (.redirectionMethod location request.method))
  else
    match location with
    | none => (jar2, .failed .illegalRedirect)
    | some loc => (jar2, .redirectTo loc)

/-- The ExecutionContext threaded through redirect hops (spec §3): the
request of the current attempt, the visited-URL list `extra.redirected`,
the chain deadline `extra.timeoutAt`, and the jar state. -/
structure ChainState where
  request : RequestModel
  redirected : List String
  timeoutAt : Option Nat
  jar : Jar
  deriving DecidableEq

/-- The per-hop environment: the clock at each hop's setup, the
cancellation-signal state at each hop's setup, the transport response for
each hop, and the external URL resolver. -/
structure Env where
  clock : Nat → Nat
  aborted : Nat → Bool
  net : Nat → NetResp
  resolve : String → String → String

/-- Result of one hop of fetchImpl.  `networkPerformed` records whether the
transport operation for this hop was issued (false exactly when the setup
phase failed before doFetch). -/
inductive StepResult where
  | failed (e : FetchError) (networkPerformed : Bool)
  | resolved (r : StreamResponseModel)
  | next (s : ChainState)
  deriving DecidableEq

/-- One hop of fetchImpl (src/lib/fetch-http1.ts:34-238): run the setup
phase (setupFetch), then issue the transport operation and interpret the
response; a follow continuation recurses with the request cloned to the
new location, the visited list extended by the current URL, and the
timeoutAt returned by setupFetch carried over (lines 205-216). -/
def step (env : Env) (hop : Nat) (initTimeout : Option Nat) (s : ChainState) :
    StepResult :=
  match setupPhase s.redirected s.timeoutAt initTimeout (env.clock hop)
      (env.aborted hop) with
  | .fail e => .failed e false
  | .go timeoutAt =>
    match handleResponse env.resolve s.request s.redirected s.jar (env.net hop) with
    | (_, .failed e) => .failed e true
    | (_, .terminal r) => .resolved r
    | (jar2, .redirectTo loc) =>
      .next {
        request := cloneRequest s.request loc
        redirected := s.redirected ++ [s.request.url]
        timeoutAt := timeoutAt
        jar := jar2 }

/-- Overall result of a redirect chain (fuel-bounded). -/
inductive ChainResult where
  | resolved (r : StreamResponseModel)
  | failed (e : FetchError)
  | outOfFuel
  deriving DecidableEq

/-- Run a redirect chain, collecting the list of URLs whose transport
operation was actually issued.  The recursive call passes no per-hop
init timeout, mirroring the hard-coded `{ signal, onTrailers }` init of
src/lib/fetch-http1.ts:210. -/
def runTrace (env : Env) (initTimeout : Option Nat) (s : ChainState)
    (hop fuel : Nat) : List String × ChainResult :=
  match fuel with
  | 0 => ([], .outOfFuel)
  | fuel' + 1 =>
    match step env hop initTimeout s with
    | .failed e fetched =>
      (if fetched then [s.request.url] else [], .failed e)
    | .resolved r => ([s.request.url], .resolved r)
    | .next s' =>
      let rest := runTrace env none s' (hop + 1) fuel'
      (s.request.url :: rest.1, rest.2)

/-- The entry point fetch (src/lib/fetch-http1.ts:240-252): timeoutAt
starts undefined and the visited list empty. -/
def runFetch (env : Env) (initTimeout : Option Nat) (request : RequestModel)
    (fuel : Nat) : List String × ChainResult :=
  runTrace env initTimeout
    { request := request, redirected := [], timeoutAt := none, jar := [] } 0 fuel

/-- The host timer resource backing a setTimeout handle. -/
inductive HostTimer where
  | armed
  | fired
  | cleared
  deriving DecidableEq

/-- State owned by the Deadline/Cancellation Coordinator
(src/lib/fetch-common.ts:165-225): whether a TimeoutInfo was constructed,
the closure variable timerId (nulled when the timer fires, line 186), the
host timer resource, whether a signal was supplied, and whether its
onabort listener is attached. -/
structure CoordState where
  hasTimeout : Bool
  timerId : Bool
  timer : HostTimer
  hasSignal : Bool
  onabort : Bool
  deriving DecidableEq

/-- Host-visible effects of the cleanup operation. -/
inductive CoordEffect where
  | cancelTimer
  | detachListener
  deriving DecidableEq

/-- timeoutInfo.clear (src/lib/fetch-common.ts:177-181): call clearTimeout
when timerId is non-null.  clearTimeout on a timer that is no longer armed
is a host no-op and produces no effect. -/
def clearTimer (s : CoordState) : CoordState × List CoordEffect :=
  if s.timerId then
    if s.timer = .armed then
      ({ s with timer := .cleared }, [.cancelTimer])
    else (s, [])
  else (s, [])

/-- Translation of cleanup (src/lib/fetch-common.ts:218-225): clear the
timer when a TimeoutInfo exists, then delete signal.onabort when a signal
was supplied.  Returns the new state and the host-visible effects of this
call. -/
def cleanup (s : CoordState) : CoordState × List CoordEffect :=
  let p := if s.hasTimeout then clearTimer s else (s, [])
  if p.1.hasSignal ∧ p.1.onabort then
    ({ p.1 with onabort := false }, p.2 ++ [.detachListener])
  else p

/-- A concrete GET request to URL "A" with follow policy, used in the
analysis of the redirect-loop check. -/
def requestA : RequestModel :=
  { url := "A", method := "GET", redirect := .follow, headers := [] }

/-- A concrete environment realising the two-URL cycle A -> B -> A -> ...:
every hop answers 302 and the location alternates between "B" and "A". -/
def envLoop : Env :=
  { clock := fun _ => 0
    aborted := fun _ => false
    net := fun k =>
      { status := 302
        headers := [("location", .str (if k % 2 = 0 then "B" else "A"))] }
    resolve := fun s _ => s }

theorem hGet_append (hs hs' : RawHeaders) (k : String) :
    hGet (hs ++ hs') k =
      match hGet hs k with
      | some v => some v
      | none => hGet hs' k := by
  induction hs with
  | nil => rfl
  | cons p hs ih =>
    simp only [List.cons_append, hGet]
    split
    · rfl
    · exact ih

theorem hGet_rawOverwrite_ne (hs : RawHeaders) (k' v k : String) (h : k' ≠ k) :
    hGet (rawOverwrite hs k' v) k = hGet hs k := by
  induction hs with
  | nil => rfl
  | cons p hs ih =>
    simp only [rawOverwrite, List.map_cons] at ih ⊢
    by_cases hp : p.1 = k'
    · simp only [if_pos hp, hGet, if_neg h, if_neg (hp ▸ h : ¬(p.1 = k))]
      exact ih
    · simp only [if_neg hp, hGet]
      split
      · rfl
      · exact ih

theorem hGet_eq_none_of_not_any (hs : RawHeaders) (k : String)
    (h : hs.any (fun p => p.1 == k) = false) :
    hGet hs k = none := by
  induction hs with
  | nil => rfl
  | cons p hs ih =>
    simp only [List.any_cons, Bool.or_eq_false_iff, beq_eq_false_iff_ne] at h
    simp only [hGet, if_neg h.1]
    exact ih h.2

theorem hGet_rawSet_ne (hs : RawHeaders) (k' v k : String) (h : k' ≠ k) :
    hGet (rawSet hs k' v) k = hGet hs k := by
  unfold rawSet
  split
  · exact hGet_rawOverwrite_ne hs k' v k h
  · rw [hGet_append]
    cases hg : hGet hs k with
    | some w => rfl
    | none => simp [hGet, if_neg h]

theorem hGet_rawOverwrite_self_of_any (hs : RawHeaders) (k v : String)
    (h : hs.any (fun p => p.1 == k) = true) :
    hGet (rawOverwrite hs k v) k = some v := by
  induction hs with
  | nil => cases h
  | cons p hs ih =>
    simp only [rawOverwrite, List.map_cons] at ih ⊢
    by_cases hp : p.1 = k
    · simp [if_pos hp, hGet]
    · simp only [List.any_cons, Bool.or_eq_true] at h
      rcases h with h | h
      · exact absurd (by simpa using h) hp
      · simp only [if_neg hp, hGet, if_neg hp]
        exact ih h

theorem hGet_rawSet_self (hs : RawHeaders) (k v : String) :
    hGet (rawSet hs k v) k = some v := by
  unfold rawSet
  split
  case isTrue h => exact hGet_rawOverwrite_self_of_any hs k v h
  case isFalse h =>
    rw [hGet_append, hGet_eq_none_of_not_any hs k (by rwa [Bool.not_eq_true] at h)]
    simp [hGet]

theorem hGet_copyHeader_ne (proto : Protocol) (hs : RawHeaders)
    (kv : String × String) (k : String) (hk1 : k ≠ ":authority")
    (hk2 : kv.1 ≠ k) :
    hGet (copyHeader proto hs kv) k = hGet hs k := by
  unfold copyHeader
  split
  · exact hGet_rawSet_ne _ _ _ _ (Ne.symm hk1)
  · split
    · exact hGet_rawSet_ne _ _ _ _ hk2
    · rfl

theorem hGet_copyHeader_cookie (proto : Protocol) (hs : RawHeaders)
    (kv : String × String) :
    hGet (copyHeader proto hs kv) "cookie" = hGet hs "cookie" := by
  unfold copyHeader
  split
  · exact hGet_rawSet_ne _ _ _ _ (by decide)
  · split
    case isTrue h => exact hGet_rawSet_ne _ _ _ _ h
    case isFalse h => rfl

theorem hGet_copyLoop_cookie (proto : Protocol)
    (entries : List (String × String)) (hs : RawHeaders) :
    hGet (entries.foldl (copyHeader proto) hs) "cookie" = hGet hs "cookie" := by
  induction entries generalizing hs with
  | nil => rfl
  | cons kv entries ih =>
    rw [List.foldl_cons, ih, hGet_copyHeader_cookie]

theorem hGet_copyLoop_ne (proto : Protocol) (entries : List (String × String))
    (hs : RawHeaders) (k : String) (hk1 : k ≠ ":authority")
    (he : ∀ kv ∈ entries, kv.1 ≠ k) :
    hGet (entries.foldl (copyHeader proto) hs) k = hGet hs k := by
  induction entries generalizing hs with
  | nil => rfl
  | cons kv entries ih =>
    rw [List.foldl_cons,
      ih (copyHeader proto hs kv) (fun kv' h' => he kv' (List.mem_cons_of_mem _ h')),
      hGet_copyHeader_ne proto hs kv k hk1 (he kv (List.mem_cons_self _ _))]

theorem lookupHdr_stripSetCookie (hs : RespHeaders) :
    lookupHdr (stripSetCookie hs) "set-cookie" = none ∧
    lookupHdr (stripSetCookie hs) "set-cookie2" = none := by
  induction hs with
  | nil => exact ⟨rfl, rfl⟩
  | cons p hs ih =>
    simp only [stripSetCookie, List.filter_cons] at ih ⊢
    split
    case isTrue h =>
      simp only [Bool.not_eq_true', Bool.or_eq_false_iff,
        beq_eq_false_iff_ne] at h
      simp only [lookupHdr, if_neg h.1, if_neg h.2]
      exact ih
    case isFalse h => exact ih

theorem scanForDup_spec (us : List String) (u : String) (h : u ∈ us) :
    ∃ ls, scanForDup us u = some ls ∧ ls <:+ us ∧ ls.head? = some u := by
  induction us with
  | nil => cases h
  | cons v vs ih =>
    by_cases hv : v = u
    · exact ⟨v :: vs, by simp [scanForDup, hv], List.suffix_refl _, by simp [hv]⟩
    · have hu : u ∈ vs := by
        cases h with
        | head => exact absurd rfl hv
        | tail _ h' => exact h'
      obtain ⟨ls, h1, h2, h3⟩ := ih hu
      exact ⟨ls, by simp [scanForDup, if_neg hv, h1],
        h2.trans (List.suffix_cons v vs), h3⟩

theorem ensure_concat (us : List String) (u : String) :
    ensureNotCircularRedirection (us ++ [u]) =
      match scanForDup us u with
      | none => .ok ()
      | some ls => .error (.redirectionLoop ls) := by
  unfold ensureNotCircularRedirection
  rw [List.getLast?_concat, List.dropLast_concat]

theorem setupPhase_go_timeoutAt (red : List String) (extraT it : Option Nat)
    (now : Nat) (ab : Bool) (tA : Option Nat)
    (h : setupPhase red extraT it now ab = .go tA) :
    tA = computeTimeoutAt extraT it now := by
  simp only [setupPhase] at h
  split at h
  · simp at h
  · split at h
    · simp at h
    · split at h
      · simp at h
      · injection h with h'
        exact h'.symm

theorem step_of_setupFail (env : Env) (hop : Nat) (it : Option Nat)
    (s : ChainState) (e : FetchError)
    (h : setupPhase s.redirected s.timeoutAt it (env.clock hop) (env.aborted hop)
      = .fail e) :
    step env hop it s = .failed e false := by
  unfold step
  rw [h]

theorem hGet_ite_rawSet_ne {c : Prop} [Decidable c] (hs : RawHeaders)
    (k' v k : String) (h : k' ≠ k) :
    hGet (if c then rawSet hs k' v else hs) k = hGet hs k := by
  split
  · exact hGet_rawSet_ne hs k' v k h
  · rfl

theorem handleResponse_method_reject (resolve : String → String → String)
    (request : RequestModel) (redirected : List String) (jar : Jar)
    (resp : NetResp) (loc : String)
    (hf : request.redirect = RedirectPolicy.follow)
    (hs : isRedirectStatus resp.status = true)
    (hl : parseLocation resolve (lookupHdr resp.headers "location") request.url
      = some loc)
    (hm : ¬(request.method = "GET" ∨ request.method = "HEAD")) :
    (handleResponse resolve request redirected jar resp).2
      = .failed (.redirectionMethod (some loc) request.method) := by
  simp [handleResponse, hl, hs, hf, hm]

theorem handleResponse_follow_continue (resolve : String → String → String)
    (request : RequestModel) (redirected : List String) (jar : Jar)
    (resp : NetResp) (loc : String)
    (hf : request.redirect = RedirectPolicy.follow)
    (hs : isRedirectStatus resp.status = true)
    (hl : parseLocation resolve (lookupHdr resp.headers "location") request.url
      = some loc)
    (hm : request.method = "GET" ∨ request.method = "HEAD") :
    (handleResponse resolve request redirected jar resp).2 = .redirectTo loc := by
  simp [handleResponse, hl, hs, hf, hm]

/-- C5: header assembly computes the accept-encoding value as exactly
"gzip;q=1.0, deflate;q=0.5" when no content decoders are configured, and
otherwise as each configured decoder's name with quality 1.0, in decoder
order, followed by "gzip;q=0.8, deflate;q=0.5"; decoders ["br"] yield
"br;q=1.0, gzip;q=0.8, deflate;q=0.5", and the assembled headers carry
exactly this value whenever the request does not itself set
accept-encoding. -/
theorem claim5_accept_encoding :
    acceptEncodingOf [] = "gzip;q=1.0, deflate;q=0.5"
    ∧ (∀ ds : List String, ds ≠ [] →
        acceptEncodingOf ds =
          String.intercalate ", " (ds.map (fun name => name ++ ";q=1.0"))
          ++ ", gzip;q=0.8, deflate;q=0.5")
    ∧ acceptEncodingOf ["br"] = "br;q=1.0, gzip;q=0.8, deflate;q=0.5"
    ∧ (∀ (session : SessionModel) (request : RequestModel)
        (jarCookies : List String) (urlProtocol path : String)
        (inspLength : Option Nat) (inspMime : Option String),
        (∀ kv ∈ request.headers, kv.1 ≠ "accept-encoding") →
        hGet (setupHeaders session request jarCookies urlProtocol path
          inspLength inspMime) "accept-encoding"
          = some (acceptEncodingOf session.contentDecoders)) := by
  refine ⟨rfl, ?_, rfl, ?_⟩
  · intro ds hds
    unfold acceptEncodingOf
    rw [if_neg (fun h => hds (List.length_eq_zero.mp h))]
  · intro session request jarCookies urlProtocol path inspLength inspMime hae
    simp only [setupHeaders]
    rw [hGet_ite_rawSet_ne _ _ _ _
        (by decide : ("content-type" : String) ≠ "accept-encoding"),
      hGet_ite_rawSet_ne _ _ _ _
        (by decide : ("content-length" : String) ≠ "accept-encoding"),
      hGet_copyLoop_ne _ _ _ _
        (by decide : ("accept-encoding" : String) ≠ ":authority") hae,
      hGet_ite_rawSet_ne _ _ _ _
        (by decide : ("cookie" : String) ≠ "accept-encoding")]
    cases session.protocol <;> rfl

/-- C5 witness: concrete evaluation with decoders ["br"] on a plain GET. -/
theorem claim5_accept_encoding_witness :
    acceptEncodingOf ["br"]
      = String.intercalate ", "
          ((["br"] : List String).map (fun name => name ++ ";q=1.0"))
        ++ ", gzip;q=0.8, deflate;q=0.5"
    ∧ hGet (setupHeaders
        { protocol := .http1, accept := "*", userAgent := "ua",
          contentDecoders := ["br"] }
        { url := "A", method := "GET", redirect := .follow, headers := [] }
        [] "https:" "/" none none) "accept-encoding"
      = some (acceptEncodingOf ["br"]) :=
  ⟨claim5_accept_encoding.2.1 ["br"] (by decide),
   claim5_accept_encoding.2.2.2
     { protocol := .http1, accept := "*", userAgent := "ua",
       contentDecoders := ["br"] }
     { url := "A", method := "GET", redirect := .follow, headers := [] }
     [] "https:" "/" none none (by intro kv h; cases h)⟩

/-- C9: the coordinator's cleanup is idempotent: a second call leaves the
state unchanged and performs no further host-visible effect, and one call
cancels the timer at most once and detaches the listener at most once. -/
theorem claim9_cleanup_idempotent :
    (∀ s : CoordState, cleanup (cleanup s).1 = ((cleanup s).1, []))
    ∧ (∀ s : CoordState,
        ((cleanup s).2.count .cancelTimer ≤ 1)
        ∧ ((cleanup s).2.count .detachListener ≤ 1)) := by
  constructor <;> intro s <;> rcases s with ⟨ht, ti, tm, hsig, oa⟩ <;>
    cases ht <;> cases ti <;> cases tm <;> cases hsig <;> cases oa <;> decide

/-- C10: parseLocation yields null for every non-string location value
(absent or a repeated-header array) and resolves strings against the
current request URL; a redirect-status response with a repeated location
header is therefore rejected with the illegal-redirect error exactly as
when no location header is present. -/
theorem claim10_parse_location :
    (∀ (resolve : String → String → String) (origin : String),
      parseLocation resolve none origin = none)
    ∧ (∀ (resolve : String → String → String) (xs : List String)
        (origin : String),
        parseLocation resolve (some (.arr xs)) origin = none)
    ∧ (∀ (resolve : String → String → String) (s origin : String),
        parseLocation resolve (some (.str s)) origin = some (resolve s origin))
    ∧ (∀ (resolve : String → String → String) (request : RequestModel)
        (redirected : List String) (jar : Jar) (resp : NetResp)
        (xs : List String),
        isRedirectStatus resp.status = true →
        lookupHdr resp.headers "location" = some (.arr xs) →
        (handleResponse resolve request redirected jar resp).2
          = .failed .illegalRedirect)
    ∧ (∀ (resolve : String → String → String) (request : RequestModel)
        (redirected : List String) (jar : Jar) (resp : NetResp),
        isRedirectStatus resp.status = true →
        lookupHdr resp.headers "location" = none →
        (handleResponse resolve request redirected jar resp).2
          = .failed .illegalRedirect) := by
  refine ⟨fun _ _ => rfl, fun _ _ _ => rfl, fun _ _ _ => rfl, ?_, ?_⟩
  · intro resolve request redirected jar resp xs hs hl
    simp [handleResponse, hl, parseLocation, hs]
  · intro resolve request redirected jar resp hs hl
    simp [handleResponse, hl, parseLocation, hs]

/-- C10 witness: a 302 carrying a repeated (array-valued) location header
is rejected as an illegal redirect. -/
theorem claim10_parse_location_witness :
    (handleResponse (fun s _ => s)
      { url := "A", method := "GET", redirect := .follow, headers := [] } [] []
      { status := 302, headers := [("location", HdrVal.arr ["B", "C"])] }).2
      = .failed .illegalRedirect :=
  claim10_parse_location.2.2.2.1 (fun s _ => s)
    { url := "A", method := "GET", redirect := .follow, headers := [] } [] []
    { status := 302, headers := [("location", HdrVal.arr ["B", "C"])] }
    ["B", "C"] (by decide) rfl

/-- C4: for every terminal StreamResponse, the redirected flag is true iff
the attempt is not the first hop of the chain (the visited list is
non-empty), except under the manual redirect policy, where it is always
false. -/
theorem claim4_redirected_flag :
    ∀ (resolve : String → String → String) (request : RequestModel)
      (redirected : List String) (jar : Jar) (resp : NetResp)
      (jar2 : Jar) (r : StreamResponseModel),
      handleResponse resolve request redirected jar resp = (jar2, .terminal r) →
      (r.redirected = true ↔
        (request.redirect ≠ RedirectPolicy.manual ∧ redirected ≠ [])) := by
  intro resolve request redirected jar resp jar2 r h
  simp only [handleResponse] at h
  split at h
  · simp at h
  · split at h
    · rw [Prod.mk.injEq] at h
      obtain ⟨-, h2⟩ := h
      injection h2 with h3
      subst h3
      by_cases hm : request.redirect = RedirectPolicy.manual
      · simp [hm]
      · cases redirected <;> simp [hm]
    · split at h
      · simp at h
      · split at h
        · simp at h
        · split at h <;> simp at h

/-- C4 witness: a terminal 200 on a second hop (one visited URL) under the
follow policy carries redirected = true. -/
theorem claim4_redirected_flag_witness :
    ({ url := "A", headers := [], redirected := true, status := 200 } :
      StreamResponseModel).redirected = true ↔
      (({ url := "A", method := "GET", redirect := .follow, headers := [] } :
        RequestModel).redirect ≠ RedirectPolicy.manual ∧
        (["P"] : List String) ≠ []) :=
  claim4_redirected_flag (fun s _ => s)
    { url := "A", method := "GET", redirect := .follow, headers := [] }
    ["P"] [] { status := 200, headers := [] } []
    { url := "A", headers := [], redirected := true, status := 200 } rfl

/-- C7: on every received response the set-cookie values are stored into
the session cookie jar regardless of which branch the redirect policy
evaluation then takes, and the set-cookie/set-cookie2 headers are removed
from the headers surfaced on a terminal response. -/
theorem claim7_cookies_stored_and_stripped :
    ∀ (resolve : String → String → String) (request : RequestModel)
      (redirected : List String) (jar : Jar) (resp : NetResp),
      ((handleResponse resolve request redirected jar resp).1 =
        if hdrTruthy (lookupHdr resp.headers "set-cookie") then
          setCookies jar (arrayifyHdr (lookupHdr resp.headers "set-cookie"))
            request.url
        else jar)
      ∧ (∀ (jar2 : Jar) (r : StreamResponseModel),
          handleResponse resolve request redirected jar resp
            = (jar2, .terminal r) →
          lookupHdr r.headers "set-cookie" = none ∧
          lookupHdr r.headers "set-cookie2" = none) := by
  intro resolve request redirected jar resp
  constructor
  · simp only [handleResponse]
    split
    · rfl
    · split
      · rfl
      · split
        · rfl
        · split
          · rfl
          · split <;> rfl
  · intro jar2 r h
    simp only [handleResponse] at h
    split at h
    · simp at h
    · split at h
      · rw [Prod.mk.injEq] at h
        obtain ⟨-, h2⟩ := h
        injection h2 with h3
        subst h3
        exact lookupHdr_stripSetCookie resp.headers
      · split at h
        · simp at h
        · split at h
          · simp at h
          · split at h <;> simp at h

/-- C7 witness: a 200 response with set-cookie foo=bar logs the jar store
and surfaces headers with the cookie-setting headers stripped. -/
theorem claim7_cookies_stored_and_stripped_witness :
    lookupHdr [("a", HdrVal.str "b")] "set-cookie" = none ∧
    lookupHdr [("a", HdrVal.str "b")] "set-cookie2" = none :=
  (claim7_cookies_stored_and_stripped (fun s _ => s)
    { url := "U", method := "GET", redirect := .follow, headers := [] }
    [] []
    { status := 200,
      headers := [("set-cookie", .arr ["foo=bar"]), ("a", .str "b")] }).2
    [(["foo=bar"], "U")]
    { url := "U", headers := [("a", HdrVal.str "b")], redirected := false,
      status := 200 }
    rfl

/-- C3: under the follow policy, a redirect-status response with a usable
location is rejected with RedirectionMethodError(location, method)
whenever the method is not GET or HEAD; for GET/HEAD the pipeline instead
continues with the request cloned to the resolved location URL. -/
theorem claim3_follow_method :
    (∀ (resolve : String → String → String) (request : RequestModel)
       (redirected : List String) (jar : Jar) (resp : NetResp) (loc : String),
       request.redirect = RedirectPolicy.follow →
       isRedirectStatus resp.status = true →
       parseLocation resolve (lookupHdr resp.headers "location") request.url
         = some loc →
       ¬(request.method = "GET" ∨ request.method = "HEAD") →
       (handleResponse resolve request redirected jar resp).2
         = .failed (.redirectionMethod (some loc) request.method))
    ∧ (∀ (resolve : String → String → String) (request : RequestModel)
        (redirected : List String) (jar : Jar) (resp : NetResp) (loc : String),
        request.redirect = RedirectPolicy.follow →
        isRedirectStatus resp.status = true →
        parseLocation resolve (lookupHdr resp.headers "location") request.url
          = some loc →
        (request.method = "GET" ∨ request.method = "HEAD") →
        (handleResponse resolve request redirected jar resp).2
          = .redirectTo loc)
    ∧ (∀ (env : Env) (hop : Nat) (it : Option Nat) (s : ChainState)
        (tA : Option Nat) (loc : String),
        setupPhase s.redirected s.timeoutAt it (env.clock hop) (env.aborted hop)
          = .go tA →
        s.request.redirect = RedirectPolicy.follow →
        isRedirectStatus (env.net hop).status = true →
        parseLocation env.resolve (lookupHdr (env.net hop).headers "location")
          s.request.url = some loc →
        (s.request.method = "GET" ∨ s.request.method = "HEAD") →
        step env hop it s = .next {
          request := cloneRequest s.request loc
          redirected := s.redirected ++ [s.request.url]
          timeoutAt := tA
          jar := (handleResponse env.resolve s.request s.redirected s.jar
            (env.net hop)).1 }) := by
  refine ⟨handleResponse_method_reject, handleResponse_follow_continue, ?_⟩
  intro env hop it s tA loc hsp hf hs hl hm
  have h2 := handleResponse_follow_continue env.resolve s.request s.redirected
    s.jar (env.net hop) loc hf hs hl hm
  unfold step
  rw [hsp]
  rcases hh : handleResponse env.resolve s.request s.redirected s.jar
    (env.net hop) with ⟨j2, oc⟩
  rw [hh] at h2
  simp only at h2
  subst h2
  rfl

/-- C3 witness: a POST receiving a follow-policy 302 with location "B"
fails with the redirection-method error. -/
theorem claim3_follow_method_witness :
    (handleResponse (fun s _ => s)
      { url := "A", method := "POST", redirect := .follow, headers := [] }
      [] [] { status := 302, headers := [("location", HdrVal.str "B")] }).2
      = .failed (.redirectionMethod (some "B") "POST") :=
  claim3_follow_method.1 (fun s _ => s)
    { url := "A", method := "POST", redirect := .follow, headers := [] }
    [] [] { status := 302, headers := [("location", HdrVal.str "B")] }
    "B" rfl rfl rfl (by decide)

/-- C8: setup fails immediately — before the transport operation and
without building the race — with TimeoutError when the chain deadline is
already in the past at setup time, and with AbortError when the supplied
cancellation signal is already signaled; a setup failure yields the step's
failure with no network operation performed. -/
theorem claim8_setup_preflight :
    (∀ (red : List String) (extraT it : Option Nat) (now : Nat) (ab : Bool)
       (T : Nat),
       ensureNotCircularRedirection red = .ok () →
       computeTimeoutAt extraT it now = some T → T ≠ 0 → now ≥ T →
       setupPhase red extraT it now ab = .fail .timeout)
    ∧ (∀ (red : List String) (extraT it : Option Nat) (now : Nat) (ab : Bool),
        ensureNotCircularRedirection red = .ok () →
        setupTimeoutCheck (computeTimeoutAt extraT it now) now = none →
        ab = true →
        setupPhase red extraT it now ab = .fail .abort)
    ∧ (∀ (env : Env) (hop : Nat) (it : Option Nat) (s : ChainState)
        (e : FetchError),
        setupPhase s.redirected s.timeoutAt it (env.clock hop) (env.aborted hop)
          = .fail e →
        step env hop it s = .failed e false) := by
  refine ⟨?_, ?_, fun env hop it s e h => step_of_setupFail env hop it s e h⟩
  · intro red extraT it now ab T hok hct hT0 hnow
    simp [setupPhase, hok, hct, setupTimeoutCheck, hT0, hnow]
  · intro red extraT it now ab hok hct hab
    simp [setupPhase, hok, hct, hab]

/-- C8 witness: a deadline of 50 at clock 60 fails with TimeoutError; an
already-signaled abort at setup fails with AbortError. -/
theorem claim8_setup_preflight_witness :
    setupPhase ["A"] (some 50) none 60 false = .fail .timeout
    ∧ setupPhase ["A"] none none 60 true = .fail .abort :=
  ⟨claim8_setup_preflight.1 ["A"] (some 50) none 60 false 50 rfl rfl
      (by decide) (by decide),
   claim8_setup_preflight.2.1 ["A"] none none 60 true rfl rfl rfl⟩

/-- C2: a chain deadline fixed in the state is passed unchanged to the
next hop by every follow continuation (the recursion never recomputes a
per-hop timeout), and a hop whose setup clock has passed the deadline
fails with TimeoutError before its network operation, so a chain exceeding
the original deadline across hops fails even when each hop was fast. -/
theorem claim2_deadline_carried :
    (∀ (env : Env) (hop : Nat) (it : Option Nat) (s s' : ChainState) (T : Nat),
       s.timeoutAt = some T → T ≠ 0 →
       step env hop it s = .next s' →
       s'.timeoutAt = some T)
    ∧ (∀ (env : Env) (hop : Nat) (it : Option Nat) (s : ChainState) (T : Nat),
        s.timeoutAt = some T → T ≠ 0 →
        ensureNotCircularRedirection s.redirected = .ok () →
        env.clock hop ≥ T →
        step env hop it s = .failed .timeout false) := by
  constructor
  · intro env hop it s s' T hT hT0 hstep
    unfold step at hstep
    cases hsp : setupPhase s.redirected s.timeoutAt it (env.clock hop)
        (env.aborted hop) with
    | fail e => rw [hsp] at hstep; simp at hstep
    | go tA =>
      rw [hsp] at hstep
      have htA : tA = computeTimeoutAt s.timeoutAt it (env.clock hop) :=
        setupPhase_go_timeoutAt _ _ _ _ _ _ hsp
      rw [hT] at htA
      simp only [computeTimeoutAt, if_pos hT0] at htA
      rcases hh : handleResponse env.resolve s.request s.redirected s.jar
        (env.net hop) with ⟨j2, oc⟩
      rw [hh] at hstep
      cases oc with
      | failed e => simp at hstep
      | terminal r => simp at hstep
      | redirectTo loc =>
        simp only at hstep
        injection hstep with h1
        rw [← h1]
        exact htA
  · intro env hop it s T hT hT0 hok hclock
    apply step_of_setupFail
    simp [setupPhase, hok, hT, computeTimeoutAt, hT0, setupTimeoutCheck, hclock]

/-- C2 witness: on a third hop whose setup clock (100) has passed the
carried deadline (50), the step fails with TimeoutError without a network
operation. -/
theorem claim2_deadline_carried_witness :
    step
      { clock := fun _ => 100
        aborted := fun _ => false
        net := fun _ => { status := 200, headers := [] }
        resolve := fun s _ => s }
      2 none
      { request :=
          { url := "C", method := "GET", redirect := .follow, headers := [] }
        redirected := ["A", "B"]
        timeoutAt := some 50
        jar := [] }
      = .failed .timeout false :=
  claim2_deadline_carried.2
    { clock := fun _ => 100
      aborted := fun _ => false
      net := fun _ => { status := 200, headers := [] }
      resolve := fun s _ => s }
    2 none
    { request :=
        { url := "C", method := "GET", redirect := .follow, headers := [] }
      redirected := ["A", "B"]
      timeoutAt := some 50
      jar := [] }
    50 rfl (by decide) rfl (by decide)

/-- C6: the outgoing cookie header is the session jar entries for the URL
first, then the request's own cookie header values, joined with "; "; when
the combined list is empty the cookie header is omitted from the assembled
headers entirely (and the raw cookie header is never copied a second time
by the verbatim loop). -/
theorem claim6_cookie_merge :
    ∀ (session : SessionModel) (request : RequestModel)
      (jarCookies : List String) (urlProtocol path : String)
      (inspLength : Option Nat) (inspMime : Option String),
      (mergedCookies request.headers jarCookies
        = jarCookies ++ arrayifyOpt (hGet request.headers "cookie"))
      ∧ (mergedCookies request.headers jarCookies ≠ [] →
          hGet (setupHeaders session request jarCookies urlProtocol path
            inspLength inspMime) "cookie"
          = some (String.intercalate "; "
              (jarCookies ++ arrayifyOpt (hGet request.headers "cookie"))))
      ∧ (mergedCookies request.headers jarCookies = [] →
          hHas (setupHeaders session request jarCookies urlProtocol path
            inspLength inspMime) "cookie" = false) := by
  intro session request jarCookies urlProtocol path inspLength inspMime
  have hm : mergedCookies request.headers jarCookies
      = jarCookies ++ arrayifyOpt (hGet request.headers "cookie") := by
    unfold mergedCookies hHas
    cases hg : hGet request.headers "cookie" with
    | none => simp [arrayifyOpt]
    | some v => simp [arrayifyOpt]
  refine ⟨hm, ?_, ?_⟩
  · intro hne
    simp only [setupHeaders]
    rw [hGet_ite_rawSet_ne _ _ _ _
        (by decide : ("content-type" : String) ≠ "cookie"),
      hGet_ite_rawSet_ne _ _ _ _
        (by decide : ("content-length" : String) ≠ "cookie"),
      hGet_copyLoop_cookie,
      if_pos (List.length_pos.mpr hne), hGet_rawSet_self, hm]
  · intro he
    simp only [setupHeaders]
    unfold hHas
    rw [hGet_ite_rawSet_ne _ _ _ _
        (by decide : ("content-type" : String) ≠ "cookie"),
      hGet_ite_rawSet_ne _ _ _ _
        (by decide : ("content-length" : String) ≠ "cookie"),
      hGet_copyLoop_cookie,
      if_neg (by rw [he]; exact lt_irrefl 0)]
    cases session.protocol <;> rfl

/-- C6 witness: jar entry a=b plus request cookie header c=d assemble to
cookie "a=b; c=d" (jar entries first). -/
theorem claim6_cookie_merge_witness :
    hGet (setupHeaders
      { protocol := .http1, accept := "*", userAgent := "ua",
        contentDecoders := [] }
      { url := "A", method := "GET", redirect := .follow,
        headers := [("cookie", "c=d")] }
      ["a=b"] "https:" "/" none none) "cookie"
      = some (String.intercalate "; "
          (["a=b"] ++ arrayifyOpt (hGet [("cookie", "c=d")] "cookie"))) :=
  (claim6_cookie_merge
    { protocol := .http1, accept := "*", userAgent := "ua",
      contentDecoders := [] }
    { url := "A", method := "GET", redirect := .follow,
      headers := [("cookie", "c=d")] }
    ["a=b"] "https:" "/" none none).2.1 (by decide)

/-- C1 counterexample: in the chain A -> B -> A the URL "A" about to be
visited on hop 2 already appears in the visited list ["A", "B"], yet the
step does not fail — it performs the network operation for that hop and
continues; run to completion, the chain's transport trace is
["A", "B", "A"] (the revisited URL is fetched a second time) and the
redirection-loop error only surfaces on the following hop. -/
theorem claim1_loop_check_counterexample :
    ("A" ∈ (["A", "B"] : List String))
    ∧ step envLoop 2 none
        { request := requestA
          redirected := ["A", "B"]
          timeoutAt := none
          jar := [] }
      = .next
        { request := { requestA with url := "B" }
          redirected := ["A", "B", "A"]
          timeoutAt := none
          jar := [] }
    ∧ runFetch envLoop none requestA 6
      = (["A", "B", "A"], .failed (.redirectionLoop ["A", "B"])) :=
  ⟨by decide, by decide, by decide⟩

/-- C1 amended: the loop check inspects only the already-visited list:
whenever the most recently visited URL (the last entry of the visited
list) also occurs earlier in that list, the hop fails with the
redirection-loop error — carrying the sub-sequence from the first earlier
occurrence — before its network operation is performed.  Detection thus
fires one hop after the revisited URL's network operation, not before
it. -/
theorem claim1_loop_check_amended :
    ∀ (env : Env) (hop : Nat) (it : Option Nat) (req : RequestModel)
      (tA : Option Nat) (jar : Jar) (us : List String) (u : String),
      u ∈ us →
      ∃ ls, ls <:+ us ∧ ls.head? = some u ∧
        step env hop it
          { request := req, redirected := us ++ [u], timeoutAt := tA, jar := jar }
          = .failed (.redirectionLoop ls) false := by
  intro env hop it req tA jar us u hu
  obtain ⟨ls, h1, h2, h3⟩ := scanForDup_spec us u hu
  refine ⟨ls, h2, h3, ?_⟩
  apply step_of_setupFail
  show setupPhase (us ++ [u]) tA it (env.clock hop) (env.aborted hop)
    = .fail (.redirectionLoop ls)
  unfold setupPhase
  rw [ensure_concat, h1]

/-- C1 amended witness: with visited list ["A", "B"] ++ ["A"] (the last
entry "A" occurred earlier), the next hop fails with the redirection-loop
error before any network operation. -/
theorem claim1_loop_check_amended_witness :
    ∃ ls, ls <:+ (["A", "B"] : List String) ∧ ls.head? = some "A" ∧
      step envLoop 3 none
        { request := { requestA with url := "B" }
          redirected := ["A", "B"] ++ ["A"]
          timeoutAt := none
          jar := [] }
        = .failed (.redirectionLoop ls) false :=
  claim1_loop_check_amended envLoop 3 none { requestA with url := "B" } none []
    ["A", "B"] "A" (by decide)

end FetchH2
